import Mathlib

/-!
Verification development for the chess rules core of the ChessGUI repository
(package `chessgui.game`: `piece.py`, `moves.py`, `state.py`, `game.py`,
`utils.py`, `tree.py`, `result.py`).

Embedding conventions:
* Python objects become Lean records; attribute reads and writes (including
  reads/writes that go through `@property` accessors, and the pairs such as
  `half_moves` / `_half_moves` that the source spells both with and without a
  leading underscore) are modelled as record-field access on a single field.
* The 64-slot board list `_pieces` (indexed by `8 * row + col`) is modelled as
  a total mapping `Square → Option ChessPiece`; `place_piece_on` is a pointwise
  functional update.  All verified scenarios stay inside rows/columns 0..7.
* Colors: the source represents a color as the string `"white"`/`"black"`
  (derived from `is_white`); we use `Bool` (`true` = white) throughout.
* Fallible code returns `Except PyError _`; each `raise` site is mapped to a
  `PyError` label, and expressions that would raise `AttributeError` /
  `IndexError` at runtime (e.g. `piece.name` when `piece` is `None`) are
  mapped to the corresponding error value.
* Python integers are `Int`; `range (a, b)` is `int_range a b`; `//` is
  `Int.fdiv`.
* Mutation is explicit state passing: every method that mutates `self`
  returns the updated record.
-/

set_option maxRecDepth 100000

namespace ChessGUI

/-- The six piece kinds.  The source dispatches on `piece.name`
(`"King"`, ..., `"Pawn"`), derived from the `Stockfish.Piece` enum member
(e.g. `WHITE_KING`); we use an explicit enumeration. -/
inductive PieceKind where
  | King
  | Queen
  | Rook
  | Bishop
  | Knight
  | Pawn
deriving DecidableEq, Repr

/-- A board coordinate `(row, col)`; the source passes `tuple[int, int]`. -/
abbrev Square := Int × Int

/-- `chessgui/game/piece.py`, class `ChessPiece`: the `_type` enum member is
the pair (color, kind); `row`/`col` are the stored coordinates. -/
structure ChessPiece where
  isWhite : Bool
  kind : PieceKind
  row : Int
  col : Int
deriving DecidableEq, Repr

namespace ChessPiece

/-- `ChessPiece.coords` property. -/
def coords (p : ChessPiece) : Square := (p.row, p.col)

/-- `ChessPiece.type` property: the `Stockfish.Piece` enum member, i.e. the
(color, kind) pair. -/
def ptype (p : ChessPiece) : Bool × PieceKind := (p.isWhite, p.kind)

/-- `ChessPiece.name` property (`"King"`, `"Queen"`, ...). -/
def name (p : ChessPiece) : String :=
  match p.kind with
  | .King => "King"
  | .Queen => "Queen"
  | .Rook => "Rook"
  | .Bishop => "Bishop"
  | .Knight => "Knight"
  | .Pawn => "Pawn"

/-- `ChessPiece.__eq__`: compares `_type`, `row` and `col`. -/
def eqb (p q : ChessPiece) : Bool :=
  p.ptype == q.ptype && p.row == q.row && p.col == q.col

/-- `ChessPiece.update_position`. -/
def update_position (p : ChessPiece) (row col : Int) : ChessPiece :=
  { p with row := row, col := col }

end ChessPiece

/-- `Stockfish.Piece(letter)` + `ChessPiece.__init__`: the FEN letters
`K Q R B N P` (white) and `k q r b n p` (black); any other letter raises
`ValueError`. -/
def char_to_piece (c : Char) : Option (Bool × PieceKind) :=
  match c with
  | 'K' => some (true, .King)
  | 'Q' => some (true, .Queen)
  | 'R' => some (true, .Rook)
  | 'B' => some (true, .Bishop)
  | 'N' => some (true, .Knight)
  | 'P' => some (true, .Pawn)
  | 'k' => some (false, .King)
  | 'q' => some (false, .Queen)
  | 'r' => some (false, .Rook)
  | 'b' => some (false, .Bishop)
  | 'n' => some (false, .Knight)
  | 'p' => some (false, .Pawn)
  | _ => none

/-- Labels for the exceptions the embedded code can raise. -/
inductive PyError where
  | illegalMove
  | valueError
  | attributeError
  | indexError
  | recursionError
deriving DecidableEq, Repr

/-- `chessgui/game/moves.py`, class `Move`.  `rook_move` is the nested rook
move present exactly for castling, hence the inductive (rather than
structure) definition. -/
inductive Move where
  | mk (piece : ChessPiece) (origin : Square) (target : Square)
      (captured_piece : Option ChessPiece) (promote_to : Option ChessPiece)
      (rook_move : Option Move)

namespace Move

def piece : Move → ChessPiece
  | .mk p _ _ _ _ _ => p

def origin : Move → Square
  | .mk _ o _ _ _ _ => o

def target : Move → Square
  | .mk _ _ t _ _ _ => t

def captured_piece : Move → Option ChessPiece
  | .mk _ _ _ c _ _ => c

def promote_to : Move → Option ChessPiece
  | .mk _ _ _ _ pr _ => pr

def rook_move : Move → Option Move
  | .mk _ _ _ _ _ r => r

/-- `Move.is_capture` property. -/
def is_capture (m : Move) : Bool := m.captured_piece.isSome

/-- `Move.is_promotion` property. -/
def is_promotion (m : Move) : Bool := m.promote_to.isSome

/-- `Move.is_castling` property. -/
def is_castling (m : Move) : Bool := m.rook_move.isSome

/-- `Move.is_double_move` property. -/
def is_double_move (m : Move) : Bool :=
  if m.piece.kind != .Pawn then false
  else (m.origin.1 - m.target.1).natAbs == 2

end Move

/-- Python `==` on `Optional[ChessPiece]` operands (used for
`captured_piece`): `None == None` is `True`, a piece compared with `None`
is `False` (via `ChessPiece.__eq__`'s `value is None` check and reflected
comparison), two pieces use `ChessPiece.__eq__`. -/
def opt_piece_eq : Option ChessPiece → Option ChessPiece → Bool
  | none, none => true
  | some _, none => false
  | none, some _ => false
  | some p, some q => p.eqb q

/-- The `promote_to` comparison inside `Move.__eq__`: it first tries
`self.promote_to.type == value.promote_to.type` and falls back (on
`AttributeError`, i.e. whenever either side is `None`) to plain `==`. -/
def promo_eq : Option ChessPiece → Option ChessPiece → Bool
  | some p, some q => p.ptype == q.ptype
  | none, none => true
  | some _, none => false
  | none, some _ => false

/-- `Move.__eq__`: compares `piece`, `origin`, `target`, `captured_piece`
and `promote_to` (the nested `rook_move` is not compared). -/
def move_eq (m1 m2 : Move) : Bool :=
  m1.piece.eqb m2.piece
    && m1.origin == m2.origin
    && m1.target == m2.target
    && opt_piece_eq m1.captured_piece m2.captured_piece
    && promo_eq m1.promote_to m2.promote_to

/-- `Move.__hash__` is `hash((self.piece.name, self.origin, self.target))`;
Python's `hash` is a function of this tuple, so we model the hash by the
tuple itself. -/
def Move.hash_key (m : Move) : String × Square × Square :=
  (m.piece.name, m.origin, m.target)

/-- The `castling_rights` dict of `GameState`, keys `"K" "Q" "k" "q"`. -/
structure CastlingRights where
  whiteK : Bool
  whiteQ : Bool
  blackK : Bool
  blackQ : Bool
deriving DecidableEq, Repr

/-- `chessgui/game/state.py`, class `GameState` (the fields used by the
rules engine; `_pieces`, `_is_white_active`, `_en_passant_target`,
`castling_rights`, `_moves`, `_half_moves`). -/
structure GameState where
  pieces : Square → Option ChessPiece
  is_white_active : Bool
  en_passant_target : Option Square
  castling_rights : CastlingRights
  moves : Int
  half_moves : Int

namespace GameState

/-- `GameState.get_piece_on`. -/
def get_piece_on (s : GameState) (row col : Int) : Option ChessPiece :=
  s.pieces (row, col)

/-- `GameState.is_occupied`. -/
def is_occupied (s : GameState) (row col : Int) : Bool :=
  (s.get_piece_on row col).isSome

/-- `GameState.is_enpassant_target` (also `is_en_passant_target`): whether
`(row, col)` equals the recorded en-passant target. -/
def is_enpassant_target (s : GameState) (row col : Int) : Bool :=
  s.en_passant_target == some (row, col)

/-- `GameState.place_piece_on`: writes the slot and updates the stored
coordinates of the placed piece to the slot's coordinates. -/
def place_piece_on (s : GameState) (row col : Int) (p : Option ChessPiece) :
    GameState :=
  { s with
    pieces := fun sq =>
      if sq = (row, col) then p.map (fun q => q.update_position row col)
      else s.pieces sq }

end GameState

/-- All 64 squares in the row-major order of
`itertools.product (range 8, repeat 2)` / the nested `for row ... for col`
loops. -/
def all_squares : List Square :=
  (List.range 8).flatMap (fun r => (List.range 8).map (fun c => ((r : Int), (c : Int))))

/-- `GameState.find_king`: scan rows then columns (row-major) and return the
first square holding a piece of the given color whose kind is King; `none`
models the `ValueError` raise at the call sites. -/
def GameState.find_king (s : GameState) (isWhite : Bool) : Option Square :=
  all_squares.find? (fun sq =>
    match s.pieces sq with
    | some p => p.isWhite == isWhite && p.kind == PieceKind.King
    | none => false)

/-- Python `range (a, b)` over integers. -/
def int_range (a b : Int) : List Int :=
  (List.range (b - a).toNat).map (fun i => a + (i : Int))

/-- `chessgui/game/result.py`, enum `GameResult`. -/
inductive GameResult where
  | WIN_BLACK_CHECKMATE
  | WIN_BLACK_RESIGNATION
  | DRAW_BY_STALEMATE
  | WIN_WHITE_CHECKMATE
  | WIN_WHITE_RESIGNATION
  | DRAW_BY_REPETION
  | DRAW_BY_50_MOVE
  | DRAW_INSUFFICIENT_MATERIAL
deriving DecidableEq, Repr

/-- `Move.__init__` (`chessgui/game/moves.py`): rejects `target == origin`;
suppresses a same-color rook-takes-king "capture" (after which the source
dereferences `captured_piece.color` on `None`, an `AttributeError`); rejects
same-color captures; rejects promotion of a non-pawn and promotion to the
other color. -/
def mk_move (piece : ChessPiece) (origin target : Square)
    (captured : Option ChessPiece) (promo : Option ChessPiece)
    (rookMove : Option Move) : Except PyError Move :=
  if target = origin then .error .illegalMove
  else do
    let cap ← (match captured with
      | none => Except.ok (none : Option ChessPiece)
      | some c =>
        if piece.kind = .Rook ∧ c.kind = .King ∧ piece.isWhite = c.isWhite then
          .error .attributeError
        else if c.isWhite = piece.isWhite then .error .illegalMove
        else .ok (some c))
    let pr ← (match promo with
      | none => Except.ok (none : Option ChessPiece)
      | some p =>
        if piece.kind ≠ .Pawn then .error .illegalMove
        else if p.isWhite ≠ piece.isWhite then .error .valueError
        else .ok (some p))
    .ok (Move.mk piece origin target cap pr rookMove)

/-- `ChessGame._generate_move` (`chessgui/game/game.py`), fuelled: the only
recursive call builds the nested rook move of a castling king move.  Fuel 0
models Python's `RecursionError`; with the default fuel the recursion can
only bottom out on boards that chain king "castling" moves pathologically. -/
def generate_move_fuel : Nat → GameState → Square → Square → Option Char →
    Except PyError Move
  | 0, _, _, _, _ => .error .recursionError
  | fuel + 1, s, origin, target, promoc =>
    match s.pieces origin with
    | none => .error .attributeError
    | some piece =>
      let captured : Option ChessPiece :=
        match s.pieces target with
        | some c =>
          if piece.kind = .Rook ∧ c.kind = .King ∧ piece.isWhite = c.isWhite
          then none else some c
        | none =>
          if piece.kind = .Pawn ∧ s.en_passant_target = some target then
            if target.1 = 2 then s.pieces (4, target.2)
            else s.pieces (3, target.2)
          else none
      do
        let pr ← (match promoc with
          | none => Except.ok (none : Option ChessPiece)
          | some ch =>
            match char_to_piece ch with
            | none => .error .valueError
            | some wk =>
              if target.1 ≠ (if piece.isWhite then (0 : Int) else 7) then
                .error .valueError
              else .ok (some ⟨wk.1, wk.2, target.1, target.2⟩))
        let rm ← (if piece.kind = .King ∧ (origin.2 - target.2).natAbs > 1 then
            if origin.2 > target.2 then
              (generate_move_fuel fuel s (origin.1, 0) (target.1, target.2 + 1)
                none).map some
            else
              (generate_move_fuel fuel s (origin.1, 7) (target.1, target.2 - 1)
                none).map some
          else Except.ok (none : Option Move))
        mk_move piece origin target captured pr rm

/-- `ChessGame._generate_move` with Python's default recursion headroom. -/
def generate_move (s : GameState) (origin target : Square)
    (promoc : Option Char) : Except PyError Move :=
  generate_move_fuel 1000 s origin target promoc

def king_offsets : List (Int × Int) :=
  [(-1, -1), (-1, 0), (-1, 1), (0, -1), (0, 1), (1, -1), (1, 0), (1, 1)]

def queen_offsets : List (Int × Int) :=
  [(-1, 0), (1, 0), (0, -1), (0, 1), (-1, -1), (-1, 1), (1, -1), (1, 1)]

def rook_offsets : List (Int × Int) := [(-1, 0), (1, 0), (0, -1), (0, 1)]

def bishop_offsets : List (Int × Int) := [(-1, -1), (-1, 1), (1, -1), (1, 1)]

def knight_offsets : List (Int × Int) :=
  [(-2, -1), (-2, 1), (-1, -2), (-1, 2), (1, -2), (1, 2), (2, -1), (2, 1)]

/-- The shared single-step offset scan of `_get_possible_king_moves` (its
non-castling part) and `_get_possible_knight_moves`: keep in-bounds targets
that are empty or hold an opposite-color piece. -/
def gen_step_moves (offsets : List (Int × Int)) (origin : Square)
    (s : GameState) (piece : ChessPiece) : Except PyError (List Move) :=
  offsets.foldlM
    (fun acc off =>
      let nr := origin.1 + off.1
      let nc := origin.2 + off.2
      if 0 ≤ nr ∧ nr < 8 ∧ 0 ≤ nc ∧ nc < 8 then
        match s.get_piece_on nr nc with
        | none => do
          let m ← generate_move s origin (nr, nc) none
          pure (acc ++ [m])
        | some q =>
          if q.isWhite != piece.isWhite then do
            let m ← generate_move s origin (nr, nc) none
            pure (acc ++ [m])
          else pure acc
      else pure acc)
    []

/-- `ChessGame._get_possible_king_moves`: eight single steps, then the two
castling candidates.  Castling requires the corresponding right and that
every column strictly between the king's column and the rook (the Python
`for ... else` over `range`) is unoccupied; king-side targets column 6 with
cols `origin+1 .. 6` checked, queen-side targets column 2 with cols
`1 .. origin-1` checked. -/
def gen_king_moves (origin : Square) (s : GameState) :
    Except PyError (List Move) :=
  match s.pieces origin with
  | none => .error .attributeError
  | some piece => do
    let base ← gen_step_moves king_offsets origin s piece
    let kRight := if piece.isWhite then s.castling_rights.whiteK
      else s.castling_rights.blackK
    let withK ← (if kRight then
        let target : Square := (origin.1, 6)
        if (int_range (origin.2 + 1) (target.2 + 1)).all
            (fun c => !(s.is_occupied origin.1 c)) then do
          let m ← generate_move s origin target none
          pure (base ++ [m])
        else pure base
      else pure base)
    let qRight := if piece.isWhite then s.castling_rights.whiteQ
      else s.castling_rights.blackQ
    if qRight then
      let target : Square := (origin.1, 2)
      if (int_range (target.2 - 1) origin.2).all
          (fun c => !(s.is_occupied origin.1 c)) then do
        let m ← generate_move s origin target none
        pure (withK ++ [m])
      else pure withK
    else pure withK

/-- One ray of the sliding-piece `while` loops: walk from `(r, c)` in
direction `off` while on the board; an empty square is kept and the walk
continues, an opposite-color piece is kept and stops the walk, a same-color
piece stops it.  Fuel 8 dominates the at most 8 in-bounds steps a ray can
make. -/
def ray_walk (s : GameState) (piece : ChessPiece) (origin : Square)
    (off : Int × Int) : Nat → Int → Int → Except PyError (List Move)
  | 0, _, _ => .ok []
  | n + 1, r, c =>
    if 0 ≤ r ∧ r < 8 ∧ 0 ≤ c ∧ c < 8 then
      match s.pieces (r, c) with
      | none => do
        let m ← generate_move s origin (r, c) none
        let rest ← ray_walk s piece origin off n (r + off.1) (c + off.2)
        pure (m :: rest)
      | some q =>
        if q.isWhite != piece.isWhite then do
          let m ← generate_move s origin (r, c) none
          pure [m]
        else .ok []
    else .ok []

/-- The common body of `_get_possible_queen_moves`, `_get_possible_rook_moves`
and `_get_possible_bishop_moves`: one `ray_walk` per direction offset. -/
def gen_ray_moves (offsets : List (Int × Int)) (origin : Square)
    (s : GameState) : Except PyError (List Move) :=
  match s.pieces origin with
  | none => .error .attributeError
  | some piece =>
    offsets.foldlM
      (fun acc off => do
        let ms ← ray_walk s piece origin off 8 (origin.1 + off.1)
          (origin.2 + off.2)
        pure (acc ++ ms))
      []

def gen_queen_moves (origin : Square) (s : GameState) :
    Except PyError (List Move) :=
  gen_ray_moves queen_offsets origin s

def gen_rook_moves (origin : Square) (s : GameState) :
    Except PyError (List Move) :=
  gen_ray_moves rook_offsets origin s

def gen_bishop_moves (origin : Square) (s : GameState) :
    Except PyError (List Move) :=
  gen_ray_moves bishop_offsets origin s

def gen_knight_moves (origin : Square) (s : GameState) :
    Except PyError (List Move) :=
  match s.pieces origin with
  | none => .error .attributeError
  | some piece => gen_step_moves knight_offsets origin s piece

/-- `ChessGame._get_possible_pawn_moves`.  Note that the inner `append_move`
helper emits one move per promotion letter whenever
`include_promotion_options` is set, for every pawn move (the far-edge test
lives in `_generate_move`, which raises `ValueError` off the edge). -/
def gen_pawn_moves (origin : Square) (s : GameState)
    (include_promotion_options : Bool) : Except PyError (List Move) :=
  match s.pieces origin with
  | none => .error .attributeError
  | some piece =>
    let isW := piece.isWhite
    let moveOff : Int := if isW then -1 else 1
    let doubleOff : Int := if isW then -2 else 2
    let promotion_options : List Char :=
      if isW then ['Q', 'R', 'B', 'N'] else ['q', 'r', 'b', 'n']
    let append_move : Square → Except PyError (List Move) := fun target =>
      if !include_promotion_options then do
        let m ← generate_move s origin target none
        pure [m]
      else
        promotion_options.foldlM
          (fun acc ch => do
            let m ← generate_move s origin target (some ch)
            pure (acc ++ [m]))
          []
    do
      -- one square forward
      let t1 : Square := (origin.1 + moveOff, origin.2)
      let acc1 ← (if 0 ≤ t1.1 ∧ t1.1 < 8 then
          if !(s.is_occupied t1.1 t1.2) then append_move t1
          else pure []
        else pure [])
      -- two squares forward, from the starting rank only
      let acc2 ← (if (isW ∧ origin.1 = 6) ∨ (¬isW ∧ origin.1 = 1) then
          let t2 : Square := (origin.1 + doubleOff, origin.2)
          if 0 ≤ t2.1 ∧ t2.1 < 8 then
            if !(s.is_occupied t2.1 t2.2) then do
              let ms ← append_move t2
              pure (acc1 ++ ms)
            else pure acc1
          else pure acc1
        else pure acc1)
      -- diagonal captures
      let capture_offsets : List (Int × Int) :=
        if isW then [(-1, -1), (-1, 1)] else [(1, -1), (1, 1)]
      let acc3 ← capture_offsets.foldlM
        (fun acc off =>
          let t : Square := (origin.1 + off.1, origin.2 + off.2)
          if 0 ≤ t.1 ∧ t.1 < 8 ∧ 0 ≤ t.2 ∧ t.2 < 8 then
            match s.get_piece_on t.1 t.2 with
            | some q =>
              if q.isWhite != isW then do
                let ms ← append_move t
                pure (acc ++ ms)
              else pure acc
            | none => pure acc
          else pure acc)
        acc2
      -- en passant captures (the source's `enpassant_offsets` equals
      -- `capture_offsets`)
      capture_offsets.foldlM
        (fun acc off =>
          let t : Square := (origin.1 + off.1, origin.2 + off.2)
          if 0 ≤ t.1 ∧ t.1 < 8 ∧ 0 ≤ t.2 ∧ t.2 < 8 then
            if s.is_enpassant_target t.1 t.2 then do
              let ms ← append_move t
              pure (acc ++ ms)
            else pure acc
          else pure acc)
        acc3

/-- `ChessGame._get_possible_moves_from` with `check_safe=False`: fetch the
occupant (`piece.name` on an empty square raises `AttributeError`) and
dispatch on its kind. -/
def get_possible_moves_pseudo (square : Square) (s : GameState)
    (include_promotion_options : Bool) : Except PyError (List Move) :=
  match s.pieces square with
  | none => .error .attributeError
  | some piece =>
    match piece.kind with
    | .King => gen_king_moves square s
    | .Queen => gen_queen_moves square s
    | .Rook => gen_rook_moves square s
    | .Bishop => gen_bishop_moves square s
    | .Knight => gen_knight_moves square s
    | .Pawn => gen_pawn_moves square s include_promotion_options

/-- `ChessGame.is_attacked (square, defending_color, state)`: scan all 64
squares in row-major order; for each opposite-color occupant generate its
pseudo-legal moves (`check_safe=False`) and return `true` on the first one
targeting `square`. -/
def is_attacked_aux (square : Square) (defendingIsWhite : Bool)
    (s : GameState) : List Square → Except PyError Bool
  | [] => .ok false
  | sq :: rest =>
    match s.pieces sq with
    | some p =>
      if p.isWhite != defendingIsWhite then do
        let ms ← get_possible_moves_pseudo sq s false
        if ms.any (fun m => m.target == square) then pure true
        else is_attacked_aux square defendingIsWhite s rest
      else is_attacked_aux square defendingIsWhite s rest
    | none => is_attacked_aux square defendingIsWhite s rest

def is_attacked (square : Square) (defendingIsWhite : Bool) (s : GameState) :
    Except PyError Bool :=
  is_attacked_aux square defendingIsWhite s all_squares

/-- `ChessGame.is_move_safe`: simulate on a deep copy (place a copy of the
moving piece on the target, clear the origin — the nested rook move is NOT
replayed), locate the mover's king (`ValueError` if absent) and test
attack on it; for castling additionally `and`-in non-attackedness of the
columns `range (origin_col, target_col + 1)` on the ORIGINAL state
(short-circuited, as Python's `and` is). -/
def is_move_safe (m : Move) (s : GameState) : Except PyError Bool := do
  let temp := (s.place_piece_on m.target.1 m.target.2
    (some m.piece)).place_piece_on m.origin.1 m.origin.2 none
  match temp.find_king m.piece.isWhite with
  | none => .error .valueError
  | some king_square => do
    let att ← is_attacked king_square m.piece.isWhite temp
    let safe := !att
    if m.is_castling then
      (int_range m.origin.2 (m.target.2 + 1)).foldlM
        (fun acc col =>
          if acc then do
            let a ← is_attacked (m.origin.1, col) m.piece.isWhite s
            pure (!a)
          else pure false)
        safe
    else pure safe

/-- The safety filter `[move for move in moves if is_move_safe (move, state)]`
(left to right, propagating the first exception). -/
def filter_safe : List Move → GameState → Except PyError (List Move)
  | [], _ => .ok []
  | m :: ms, s => do
    let b ← is_move_safe m s
    let rest ← filter_safe ms s
    pure (if b then m :: rest else rest)

/-- `ChessGame._get_possible_moves_from`: pseudo-legal dispatch plus the
optional safety filter. -/
def get_possible_moves_from_static (square : Square) (s : GameState)
    (check_safe : Bool) (include_promotion_options : Bool) :
    Except PyError (List Move) := do
  let moves ← get_possible_moves_pseudo square s include_promotion_options
  if check_safe then filter_safe moves s else pure moves

/-- `ChessGame.get_possible_moves_from` (the instance method):
`check_safe=True`. -/
def get_possible_moves_from (s : GameState) (square : Square)
    (include_promotion_options : Bool := false) : Except PyError (List Move) :=
  get_possible_moves_from_static square s true include_promotion_options

/-- `ChessGame.get_all_legal_moves`: all safety-filtered moves of the pieces
of the active color, row-major. -/
def get_all_legal_moves (s : GameState) : Except PyError (List Move) :=
  all_squares.foldlM
    (fun acc sq =>
      match s.pieces sq with
      | some p =>
        if p.isWhite == s.is_white_active then do
          let ms ← get_possible_moves_from s sq
          pure (acc ++ ms)
        else pure acc
      | none => pure acc)
    []

/-- `ChessGame.make_move`, through its mutations of `self.state` (the final
`self.move_tree.make_move (...)` bookkeeping line is outside the game
state): color precondition, membership of the move in
`get_possible_moves_from (origin, include_promotion_options=True)` (Python's
`in`, i.e. `Move.__eq__`), then the effects — the castling branch updates
only the castling rights and the four board slots, the non-castling branch
updates rights/en-passant/clocks/counters and the board.  (The source's
`move.piece is None` guard is unrepresentable here since `Move.piece` is
total.) -/
def make_move (s : GameState) (m : Move) : Except PyError GameState :=
  if s.is_white_active != m.piece.isWhite then .error .illegalMove
  else do
    let legal ← get_possible_moves_from s m.origin true
    if !(legal.any (fun m2 => move_eq m m2)) then .error .illegalMove
    else
      let s1 := { s with is_white_active := !s.is_white_active }
      match m.rook_move with
      | some rm =>
        let rights :=
          if m.piece.isWhite then
            { s1.castling_rights with whiteK := false, whiteQ := false }
          else
            { s1.castling_rights with blackK := false, blackQ := false }
        let s2 := { s1 with castling_rights := rights }
        let rook := s2.get_piece_on rm.origin.1 rm.origin.2
        let king := s2.get_piece_on m.origin.1 m.origin.2
        let s3 := s2.place_piece_on rm.origin.1 rm.origin.2 none
        let s4 := s3.place_piece_on m.origin.1 m.origin.2 none
        let s5 := s4.place_piece_on rm.target.1 rm.target.2 rook
        pure (s5.place_piece_on m.target.1 m.target.2 king)
      | none =>
        let rights :=
          if m.piece.kind = .King then
            if m.piece.isWhite then
              { s1.castling_rights with whiteK := false, whiteQ := false }
            else
              { s1.castling_rights with blackK := false, blackQ := false }
          else if m.piece.kind = .Rook then
            if m.piece.isWhite then
              if m.origin = ((7 : Int), (0 : Int)) then
                { s1.castling_rights with whiteQ := false }
              else if m.origin = ((7 : Int), (7 : Int)) then
                { s1.castling_rights with whiteK := false }
              else s1.castling_rights
            else
              if m.origin = ((0 : Int), (0 : Int)) then
                { s1.castling_rights with blackQ := false }
              else if m.origin = ((0 : Int), (7 : Int)) then
                { s1.castling_rights with blackK := false }
              else s1.castling_rights
          else s1.castling_rights
        let s2 := { s1 with castling_rights := rights }
        let epTarget : Option Square :=
          if m.is_double_move then
            some (Int.fdiv (m.origin.1 + m.target.1) 2, m.origin.2)
          else none
        let s3 := { s2 with en_passant_target := epTarget }
        let s4 := { s3 with half_moves :=
          if m.piece.kind = PieceKind.Pawn ∨ m.is_capture then 0
          else s3.half_moves + 1 }
        let s5 := if s4.is_white_active then { s4 with moves := s4.moves + 1 }
          else s4
        let s6 := match m.captured_piece with
          | some c => s5.place_piece_on c.row c.col none
          | none => s5
        let s7 := match m.promote_to with
          | some pr => s6.place_piece_on m.target.1 m.target.2 (some pr)
          | none => s6.place_piece_on m.target.1 m.target.2 (some m.piece)
        pure (s7.place_piece_on m.origin.1 m.origin.2 none)

/-- `ChessGame.game_result`: 50-move draw on `half_moves >= 100`; otherwise
checkmate/stalemate when the active color has no legal move; otherwise the
game continues (`None`). -/
def game_result (s : GameState) : Except PyError (Option GameResult) :=
  if s.half_moves ≥ 100 then .ok (some .DRAW_BY_50_MOVE)
  else do
    let all ← get_all_legal_moves s
    if all.length = 0 then
      match s.find_king s.is_white_active with
      | none => .error .valueError
      | some king_square => do
        let att ← is_attacked king_square s.is_white_active s
        if att then
          if s.is_white_active then pure (some GameResult.WIN_BLACK_CHECKMATE)
          else pure (some GameResult.WIN_WHITE_CHECKMATE)
        else pure (some GameResult.DRAW_BY_STALEMATE)
    else pure none

/-- Python `int (str)` on a single character (`int (pos[1])`). -/
def digit_char_to_int (c : Char) : Except PyError Int :=
  if c.isDigit then .ok ((c.toNat : Int) - ('0'.toNat : Int))
  else .error .valueError

/-- `"abcdefgh".index (ch)` (raises `ValueError` when absent). -/
def file_to_col (c : Char) : Except PyError Int :=
  match "abcdefgh".toList.findIdx? (fun x => x == c) with
  | some i => .ok (i : Int)
  | none => .error .valueError

/-- `"abcdefgh"[col]`.  Python also accepts negative indices by wrapping;
every verified use stays in `0..7`, where list indexing and this guard
agree. -/
def col_to_file (col : Int) : Except PyError Char :=
  match "abcdefgh".toList.get? col.toNat with
  | some c => if 0 ≤ col then .ok c else .error .indexError
  | none => .error .indexError

namespace Utils

/-- `chessgui/game/utils.py`, `algebraic_to_index`:
`row = 8 - int (pos[1])`, `col = "abcdefgh".index (pos[0])` (in that
evaluation order, as the source computes `row` first). -/
def algebraic_to_index (pos : String) : Except PyError Square := do
  let chars := pos.toList
  let c1 ← match chars.get? 1 with
    | some c => Except.ok c
    | none => Except.error PyError.indexError
  let d ← digit_char_to_int c1
  let row := 8 - d
  let c0 ← match chars.get? 0 with
    | some c => Except.ok c
    | none => Except.error PyError.indexError
  let col ← file_to_col c0
  .ok (row, col)

/-- `chessgui/game/utils.py`, `index_to_algebraic`:
`"abcdefgh"[col] + str (8 - row)`. -/
def index_to_algebraic (row col : Int) : Except PyError String := do
  let f ← col_to_file col
  .ok (f.toString ++ toString (8 - row))

end Utils

namespace GameState

/-- `GameState.algebraic_to_index` (`chessgui/game/state.py`):
`row = int (pos[1]) - 1`, `col = "abcdefgh".index (pos[0])`. -/
def algebraic_to_index (pos : String) : Except PyError Square := do
  let chars := pos.toList
  let c1 ← match chars.get? 1 with
    | some c => Except.ok c
    | none => Except.error PyError.indexError
  let d ← digit_char_to_int c1
  let row := d - 1
  let c0 ← match chars.get? 0 with
    | some c => Except.ok c
    | none => Except.error PyError.indexError
  let col ← file_to_col c0
  .ok (row, col)

/-- `GameState.index_to_algebraic` (`chessgui/game/state.py`):
`"abcdefgh"[col] + str (8 - row)`. -/
def index_to_algebraic (row col : Int) : Except PyError String := do
  let f ← col_to_file col
  .ok (f.toString ++ toString (8 - row))

/-- One row of the FEN piece-placement field: digits place that many `None`
slots, letters place a piece (an unknown letter raises `ValueError` from
`Stockfish.Piece (c)`), tracking the running column. -/
def load_fen_row (st : GameState) (row : Int) (chars : List Char) :
    Except PyError GameState := do
  let res ← chars.foldlM
    (fun (acc : GameState × Int) c =>
      let (st, col) := acc
      if c.isDigit then
        let d : Int := (c.toNat : Int) - ('0'.toNat : Int)
        let st := (int_range 0 d).foldl
          (fun st i => st.place_piece_on row (col + i) none) st
        Except.ok (st, col + d)
      else
        match char_to_piece c with
        | none => Except.error PyError.valueError
        | some wk =>
          Except.ok
            (st.place_piece_on row col (some ⟨wk.1, wk.2, row, col⟩), col + 1))
    (st, 0)
  .ok res.1

/-- `fen_blocks[i]` (`IndexError` when the field is missing). -/
def fen_block (blocks : List String) (i : Nat) : Except PyError String :=
  match blocks.get? i with
  | some b => .ok b
  | none => .error .indexError

/-- Python `str.split (sep)` for a single-character separator, on the
character list (consecutive separators yield empty pieces, as in Python). -/
def split_chars (sep : Char) : List Char → List (List Char)
  | [] => [[]]
  | c :: rest =>
    let r := split_chars sep rest
    if c == sep then [] :: r
    else
      match r with
      | h :: t => (c :: h) :: t
      | [] => [[c]]

def split_on_char (sep : Char) (s : String) : List String :=
  (split_chars sep s.toList).map (fun l => String.mk l)

/-- Python `int (str)` (`ValueError` on unparsable input); covers the
optional leading sign plus digits, which is all the FEN fields use. -/
def parse_int (str : String) : Except PyError Int :=
  let digits : List Char → Int :=
    fun cs => cs.foldl
      (fun acc c => acc * 10 + ((c.toNat : Int) - ('0'.toNat : Int))) 0
  match str.toList with
  | [] => .error .valueError
  | '-' :: rest =>
    if rest ≠ [] ∧ rest.all Char.isDigit then .ok (-(digits rest))
    else .error .valueError
  | cs =>
    if cs.all Char.isDigit then .ok (digits cs)
    else .error .valueError

/-- `GameState.load_fen_string`: overwrite the slots covered by the
placement field, then parse active color, castling rights, the en-passant
target (via `GameState.algebraic_to_index`) and the two counters — the
source stores `int (fen_blocks[4])` into `_moves` and `int (fen_blocks[5])`
into `_half_moves`. -/
def load_fen_string (s : GameState) (fen : String) : Except PyError GameState := do
  let fen_blocks := split_on_char ' ' fen
  let b0 ← fen_block fen_blocks 0
  let row_fen := split_on_char '/' b0
  let s ← (row_fen.enum.foldlM
    (fun st (rs : Nat × String) => load_fen_row st (rs.1 : Int) rs.2.toList) s)
  let b1 ← fen_block fen_blocks 1
  let s := { s with is_white_active := b1 == "w" }
  let b2 ← fen_block fen_blocks 2
  let s := { s with castling_rights :=
    ⟨b2.toList.contains 'K', b2.toList.contains 'Q', b2.toList.contains 'k',
     b2.toList.contains 'q'⟩ }
  let b3 ← fen_block fen_blocks 3
  let ep ← (if b3 == "-" then Except.ok (none : Option Square)
    else (GameState.algebraic_to_index b3).map some)
  let s := { s with en_passant_target := ep }
  let b4 ← fen_block fen_blocks 4
  let mvs ← parse_int b4
  let b5 ← fen_block fen_blocks 5
  let hmvs ← parse_int b5
  .ok { s with moves := mvs, half_moves := hmvs }

end GameState

/-- `chessgui/game/tree.py`, class `GameTreeNode`.  The Python objects form
a graph with `parent` back-references; we store the nodes in an arena
(`GameTree.nodes`) and replace object references by arena indices, so
`parent` and the `children` dict values are indices. -/
structure GameTreeNode where
  depth : Nat
  parent : Option Nat
  value : Option Move
  tag : String
  fen : String
  children : List (Move × Nat)

/-- `chessgui/game/tree.py`, class `GameTree`: the arena of every node ever
created, plus the `pointer` and `tip` cursors.  (`GameTree.__init__` also
keeps `root_state` and renders the root's FEN text; the text is opaque
here.) -/
structure GameTree where
  nodes : List GameTreeNode
  pointer : Nat
  tip : Nat

namespace GameTree

/-- `GameTree.__init__`: a single root node of depth 0 with no parent and no
incoming move; both cursors start at the root. -/
def init (rootFen : String) : GameTree :=
  { nodes := [{ depth := 0, parent := none, value := none, tag := "",
                fen := rootFen, children := [] }],
    pointer := 0, tip := 0 }

/-- `GameTreeNode.add_child` on the node with index `i`: return the existing
child keyed by an equal move (dict lookup, i.e. `Move.__hash__` bucket plus
`Move.__eq__`; the hash is consistent with equality), else create a child of
depth `depth + 1` with `parent := i` and register it (dicts preserve
insertion order).  Returns the updated tree and the child's index. -/
def add_child (t : GameTree) (i : Nat) (m : Move) (tag fen : String) :
    GameTree × Nat :=
  match t.nodes.get? i with
  | none => (t, i)
  | some node =>
    match node.children.find? (fun p => move_eq p.1 m) with
    | some p => (t, p.2)
    | none =>
      let j := t.nodes.length
      let child : GameTreeNode :=
        { depth := node.depth + 1, parent := some i, value := some m,
          tag := tag, fen := fen, children := [] }
      ({ t with nodes :=
          (t.nodes.set i { node with children := node.children ++ [(m, j)] })
            ++ [child] }, j)

/-- `GameTree.make_move`: get-or-create the child of the pointer, advance
the pointer there, and advance the tip too when that child is a leaf. -/
def make_move (t : GameTree) (m : Move) (tag fen : String) : GameTree :=
  let tj := t.add_child t.pointer m tag fen
  let t3 := { tj.1 with pointer := tj.2 }
  match t3.nodes.get? tj.2 with
  | some n => if n.children.isEmpty then { t3 with tip := tj.2 } else t3
  | none => t3

/-- `GameTreeNode.get_path`, fuelled: the source's `while node.parent is not
None` loop collects `node.value` and reverses; for parent chains that
strictly descend in the arena (the invariant below) the loop makes at most
`nodes.length` steps, so that fuel is enough. -/
def get_path_aux (t : GameTree) : Nat → Nat → List (Option Move)
  | 0, _ => []
  | fuel + 1, i =>
    match t.nodes.get? i with
    | none => []
    | some node =>
      match node.parent with
      | none => []
      | some p => t.get_path_aux fuel p ++ [node.value]

def get_path (t : GameTree) (i : Nat) : List (Option Move) :=
  t.get_path_aux t.nodes.length i

end GameTree

/-- The trees reachable from a fresh `GameTree` through `GameTree.make_move`
and direct `GameTreeNode.add_child` calls on existing nodes. -/
inductive TreeBuilt : GameTree → Prop where
  | init (rootFen : String) : TreeBuilt (GameTree.init rootFen)
  | step (t : GameTree) (m : Move) (tag fen : String) :
      TreeBuilt t → TreeBuilt (t.make_move m tag fen)
  | child (t : GameTree) (i : Nat) (m : Move) (tag fen : String) :
      TreeBuilt t → i < t.nodes.length → TreeBuilt (t.add_child i m tag fen).1

/-- Structural well-formedness of the arena: child indices in range, a
parentless node has depth 0, and a parented node comes strictly after its
parent with depth exactly one more. -/
def NodesWF (ns : List GameTreeNode) : Prop :=
  ∀ j node, ns.get? j = some node →
    (∀ pr ∈ node.children, pr.2 < ns.length) ∧
    (node.parent = none → node.depth = 0) ∧
    (∀ p, node.parent = some p → p < j ∧
      ∃ pn, ns.get? p = some pn ∧ node.depth = pn.depth + 1)

/-- Well-formedness of a tree: a valid pointer cursor over a well-formed
arena. -/
def TreeWF (t : GameTree) : Prop :=
  t.pointer < t.nodes.length ∧ NodesWF t.nodes

instance : Inhabited Move :=
  ⟨Move.mk ⟨true, .King, 0, 0⟩ (0, 0) (0, 1) none none none⟩

/-- A board as a finite list of placements (empty everywhere else); each
piece's stored coordinates equal its square, as `place_piece_on`
maintains. -/
def board_of (l : List (Square × ChessPiece)) : Square → Option ChessPiece :=
  fun sq => (l.find? (fun p => p.1 == sq)).map (fun p => p.2)

/-- The back rank of the standard start position by column. -/
def back_rank_kind (c : Int) : Option PieceKind :=
  if c = 0 ∨ c = 7 then some .Rook
  else if c = 1 ∨ c = 6 then some .Knight
  else if c = 2 ∨ c = 5 then some .Bishop
  else if c = 3 then some .Queen
  else if c = 4 then some .King
  else none

/-- The board of the standard start position
(`rnbqkbnr/pppppppp/8/8/8/8/PPPPPPPP/RNBQKBNR`), in the internal convention
of the move generator: row 0 is rank 8 (Black's back rank), row 7 is rank 1,
White pawns on row 6 moving towards row 0. -/
def start_board : Square → Option ChessPiece := fun sq =>
  if sq.1 = 1 then some ⟨false, .Pawn, sq.1, sq.2⟩
  else if sq.1 = 6 then some ⟨true, .Pawn, sq.1, sq.2⟩
  else if sq.1 = 0 ∨ sq.1 = 7 then
    (back_rank_kind sq.2).map (fun k => ⟨decide (sq.1 = 7), k, sq.1, sq.2⟩)
  else none

/-- The standard start position, White to move
(`... w KQkq - 0 1`). -/
def start_state : GameState :=
  { pieces := start_board, is_white_active := true, en_passant_target := none,
    castling_rights := ⟨true, true, true, true⟩, moves := 1, half_moves := 0 }

/-- A castling-ready position with Black to move: both sides have only king
and rooks on their home squares, all rights intact, en-passant target d3
recorded, half-move clock 10, full-move number 5
(FEN `r3k2r/8/8/8/8/8/8/R3K2R b KQkq d3 10 5`). -/
def c1_state : GameState :=
  { pieces := board_of
      [((0, 0), ⟨false, .Rook, 0, 0⟩), ((0, 4), ⟨false, .King, 0, 4⟩),
       ((0, 7), ⟨false, .Rook, 0, 7⟩), ((7, 0), ⟨true, .Rook, 7, 0⟩),
       ((7, 4), ⟨true, .King, 7, 4⟩), ((7, 7), ⟨true, .Rook, 7, 7⟩)],
    is_white_active := false, en_passant_target := some (5, 3),
    castling_rights := ⟨true, true, true, true⟩, moves := 5, half_moves := 10 }

/-- Black's king-side castling move e8g8 in `c1_state`, built by the move
factory exactly as the generator builds it. -/
def c1_move : Move :=
  (generate_move c1_state (0, 4) (0, 6) none).toOption.getD default

/-- White to move with queen-side castling rights; a black rook on d2
attacks d1 (the square the king passes through when castling queen-side)
but attacks neither e1 nor c1 (FEN `7k/8/8/8/8/8/3r4/R3K3 w Q - 0 1`). -/
def c2_state : GameState :=
  { pieces := board_of
      [((7, 4), ⟨true, .King, 7, 4⟩), ((7, 0), ⟨true, .Rook, 7, 0⟩),
       ((6, 3), ⟨false, .Rook, 6, 3⟩), ((0, 7), ⟨false, .King, 0, 7⟩)],
    is_white_active := true, en_passant_target := none,
    castling_rights := ⟨false, true, false, false⟩, moves := 1,
    half_moves := 0 }

/-- White's queen-side castling move e1c1 in `c2_state`. -/
def c2_move : Move :=
  (generate_move c2_state (7, 4) (7, 2) none).toOption.getD default

/-- A stalemate position, Black to move: black king a8, white queen b6,
white king h1 (FEN `k7/8/1Q6/8/8/8/8/7K b - - 3 30`). -/
def c4_state : GameState :=
  { pieces := board_of
      [((0, 0), ⟨false, .King, 0, 0⟩), ((2, 1), ⟨true, .Queen, 2, 1⟩),
       ((7, 7), ⟨true, .King, 7, 7⟩)],
    is_white_active := false, en_passant_target := none,
    castling_rights := ⟨false, false, false, false⟩, moves := 30,
    half_moves := 3 }

/-- An en-passant position: Black has just played b7b5-style ... e7e5, so
the recorded target is e6 = (2, 4) and the black pawn stands on e5 = (3, 4);
White's pawn on d5 = (3, 3) may capture en passant
(FEN `4k3/8/8/3Pp3/8/8/8/4K3 w - e6 0 12`). -/
def c5_state : GameState :=
  { pieces := board_of
      [((3, 3), ⟨true, .Pawn, 3, 3⟩), ((3, 4), ⟨false, .Pawn, 3, 4⟩),
       ((7, 4), ⟨true, .King, 7, 4⟩), ((0, 4), ⟨false, .King, 0, 4⟩)],
    is_white_active := true, en_passant_target := some (2, 4),
    castling_rights := ⟨false, false, false, false⟩, moves := 12,
    half_moves := 0 }

/-- A promotion-ready position: a white pawn on a7 = (1, 0)
(FEN `4k3/P7/8/8/8/8/8/4K3 w - - 0 1`). -/
def c6_state : GameState :=
  { pieces := board_of
      [((1, 0), ⟨true, .Pawn, 1, 0⟩), ((7, 4), ⟨true, .King, 7, 4⟩),
       ((0, 4), ⟨false, .King, 0, 4⟩)],
    is_white_active := true, en_passant_target := none,
    castling_rights := ⟨false, false, false, false⟩, moves := 1,
    half_moves := 0 }

/-- The single-step pawn move e2e3 on the start position, built by the
factory (without promotion metadata). -/
def c6_move : Move :=
  (generate_move start_state (6, 4) (5, 4) none).toOption.getD default

/-- The freshly-constructed `GameState` before `load_fen_string` runs
(`GameState.__init__` fields, board still empty). -/
def c7_init : GameState :=
  { pieces := fun _ => none, is_white_active := true,
    en_passant_target := none, castling_rights := ⟨true, true, true, true⟩,
    moves := 0, half_moves := 0 }

/-- The 64 algebraic square names a1..h8. -/
def all_alg_names : List String :=
  "abcdefgh".toList.flatMap
    (fun f => "12345678".toList.map (fun r => String.mk [f, r]))

/-- One round trip through the `utils.py` conversion pair. -/
def utils_round_trip (name : String) : Bool :=
  ((Utils.algebraic_to_index name).toOption.bind
    (fun rc => (Utils.index_to_algebraic rc.1 rc.2).toOption)) == some name

/-- Two Moves with identical compared components but distinct `rook_move`
payloads, for exercising `Move.__eq__` / `Move.__hash__`. -/
def c9_m1 : Move := Move.mk ⟨true, .Pawn, 6, 4⟩ (6, 4) (4, 4) none none none

def c9_m2 : Move :=
  Move.mk ⟨true, .Pawn, 6, 4⟩ (6, 4) (4, 4) none none (some default)

/-- A one-move tree: the root plus the child reached by `make_move`. -/
def c10_tree : GameTree := (GameTree.init "rootfen").make_move default "e4" "f1"

/-! ## Theorems settling the claims -/

/-- C1: the claim says `make_move` performs every listed effect for every
accepted move, castling included.  The code refutes it: Black's accepted
king-side castling move in `c1_state` flips the color, revokes Black's
rights and relocates king and rook, but leaves the half-move clock at 10
(the claim requires 11), the full-move number at 5 (the claim requires 6,
Black just moved) and the en-passant target still set to d3 (the claim
requires it cleared), because the castling branch of `make_move` skips the
en-passant/clock/counter updates entirely. -/
theorem make_move_castling_skips_state_updates :
    c1_move.is_castling = true ∧
    (make_move c1_state c1_move).toOption.map
      (fun s => (s.half_moves, s.moves, s.en_passant_target,
        s.is_white_active, s.castling_rights,
        (s.pieces (0, 6)).map ChessPiece.kind,
        (s.pieces (0, 5)).map ChessPiece.kind,
        s.pieces (0, 4), s.pieces (0, 7))) =
      some (10, 5, some (5, 3), true, ⟨true, true, false, false⟩,
        some .King, some .Rook, none, none) := by
  refine ⟨by decide, by rfl⟩

/-- C2: the claim says `is_move_safe` returns `False` for a castling move
whenever some square the king transits (origin to target inclusive) is
attacked in the pre-move position.  The code refutes it for queen-side
castling: in `c2_state` the black rook on d2 attacks the transit square d1
= (7, 3), yet `is_move_safe` accepts e1c1, because the transit loop runs
over `range (origin_col, target_col + 1)` = `range (4, 3)`, which is empty
when the king moves to the smaller column. -/
theorem is_move_safe_queenside_ignores_transit :
    c2_move.is_castling = true ∧
    c2_move.origin = (7, 4) ∧ c2_move.target = (7, 2) ∧
    (is_attacked (7, 3) true c2_state).toOption = some true ∧
    (is_move_safe c2_move c2_state).toOption = some true := by
  refine ⟨by decide, by decide, by decide, by decide, by decide⟩

/-- C3 counterexample: on the standard start position with White to move,
the query on the Black pawn square a7 = (1, 0) returns 2 moves (the claim
requires 0 for a non-active-color occupant), and on the empty square e4 =
(4, 4) it raises `AttributeError` instead of returning the empty list. -/
theorem get_possible_moves_guard_counterexample :
    start_state.pieces (1, 0) = some ⟨false, .Pawn, 1, 0⟩ ∧
    start_state.is_white_active = true ∧
    (get_possible_moves_from start_state (1, 0)).toOption.map List.length =
      some 2 ∧
    get_possible_moves_from start_state (4, 4) =
      Except.error PyError.attributeError := by
  refine ⟨by decide, by decide, by decide, by rfl⟩

/-- C3 as amended: `get_possible_moves_from` performs no emptiness or
active-color guard — on an empty square it fails with `AttributeError`
(from `piece.name` on `None`), and on an occupied square it returns the
occupant's safety-filtered moves regardless of color; in particular on the
standard start position with White to move the Black pawn square a7 yields
its two forward moves. -/
theorem get_possible_moves_no_guard :
    (∀ (s : GameState) (sq : Square), s.pieces sq = none →
      get_possible_moves_from s sq = Except.error PyError.attributeError) ∧
    (get_possible_moves_from start_state (1, 0)).toOption.map
      (fun ms => ms.map (fun m => (m.origin, m.target))) =
      some [((1, 0), (2, 0)), ((1, 0), (3, 0))] := by
  constructor
  · intro s sq h
    simp [get_possible_moves_from, get_possible_moves_from_static,
      get_possible_moves_pseudo, h]
    rfl
  · decide

/-- C3 witness: the empty-square case of `get_possible_moves_no_guard`
at the concrete square e4 of the start position. -/
theorem get_possible_moves_no_guard_witness :
    get_possible_moves_from start_state (4, 4) =
      Except.error PyError.attributeError :=
  get_possible_moves_no_guard.1 start_state (4, 4) rfl

/-- C5: the claim says that for a position whose recorded en-passant target
is an empty square, the factory sets `captured_piece` to the opposing pawn
adjacent to the target on the capturing pawn's originating rank.  The code
refutes it: in `c5_state` (target e6 = (2, 4), double-moved black pawn on
e5 = (3, 4), white capturer on d5 = (3, 3)) the factory reads row 4 when
the target row is 2 (and row 3 otherwise) — the two branches are swapped
relative to the board convention used by the generator — so the generated
en-passant move carries `captured_piece = None` instead of the black
pawn. -/
theorem generate_move_enpassant_wrong_rank :
    c5_state.en_passant_target = some (2, 4) ∧
    c5_state.pieces (3, 4) = some ⟨false, .Pawn, 3, 4⟩ ∧
    (generate_move c5_state (3, 3) (2, 4) none).toOption.map
      Move.captured_piece = some none ∧
    (gen_pawn_moves (3, 3) c5_state false).toOption.map
      (fun ms => ms.map (fun m => (m.target, m.captured_piece))) =
      some [((2, 3), none), ((2, 4), none)] := by
  refine ⟨by decide, by decide, by decide, by decide⟩

/-- C6: the claim says pawn generation with `include_promotion_options`
emits four promotion moves exactly on far-edge targets and still emits
every other pawn move as a single non-promotion move without failing.  The
code emits the four promotion moves on the far edge (first conjunct), but
for any pawn move that does not reach the far edge it raises `ValueError`
(second conjunct), so `make_move` — which always enumerates with promotion
options — fails on every ordinary pawn move (third conjunct). -/
theorem pawn_promotion_options_bug :
    (gen_pawn_moves (1, 0) c6_state true).toOption.map
      (fun ms => ms.map (fun m => (m.target, m.promote_to.map ChessPiece.kind))) =
      some [((0, 0), some .Queen), ((0, 0), some .Rook),
        ((0, 0), some .Bishop), ((0, 0), some .Knight)] ∧
    gen_pawn_moves (6, 4) start_state true =
      Except.error PyError.valueError ∧
    make_move start_state c6_move = Except.error PyError.valueError := by
  refine ⟨by decide, by rfl, by rfl⟩

/-- C7: the claim says the state's half-move counter (read by the 50-move
rule) equals the fifth FEN field and the full-move counter the sixth.  The
code refutes it: `load_fen_string` stores `int (fen_blocks[4])` into
`_moves` and `int (fen_blocks[5])` into `_half_moves`, i.e. the two fields
swapped, as evaluation on FENs with half-move clock 7 and full-move number
42 shows. -/
theorem load_fen_swaps_move_counters :
    (GameState.load_fen_string c7_init "8/8/8/8/8/8/8/8 w - - 7 42").toOption.map
      (fun s => (s.half_moves, s.moves)) = some (42, 7) ∧
    (GameState.load_fen_string c7_init
      "rnbqkbnr/pppppppp/8/8/8/8/PPPPPPPP/RNBQKBNR w KQkq - 7 42").toOption.map
      (fun s => (s.half_moves, s.moves)) = some (42, 7) := by
  refine ⟨by decide, by decide⟩

/-- C8: the claim says both conversion pairs are mutually inverse with
`a8 ↦ (0, 0)`.  The `utils.py` pair is (first two conjuncts: round trips on
all 64 names, and `a8 ↦ (0, 0)`), but the `GameState` pair is refuted:
its `algebraic_to_index` sends a1 to `(0, 0)` (and a8 to `(7, 0)`), while
its `index_to_algebraic` sends `(0, 0)` back to "a8", so the pair is not
mutually inverse and does not place rank 8 at row 0. -/
theorem square_conversion_state_pair_not_inverse :
    all_alg_names.all utils_round_trip = true ∧
    (Utils.algebraic_to_index "a8").toOption = some (0, 0) ∧
    (GameState.algebraic_to_index "a1").toOption = some (0, 0) ∧
    (GameState.index_to_algebraic 0 0).toOption = some "a8" ∧
    (GameState.algebraic_to_index "a8").toOption = some (7, 0) := by
  refine ⟨by decide, by decide, by decide, by decide, by decide⟩

lemma ChessPiece.eqb_refl (p : ChessPiece) : p.eqb p = true := by
  simp [ChessPiece.eqb]

lemma ChessPiece.name_eq_of_eqb {p q : ChessPiece} (h : p.eqb q = true) :
    p.name = q.name := by
  simp only [ChessPiece.eqb, ChessPiece.ptype, Bool.and_eq_true,
    beq_iff_eq, Prod.mk.injEq] at h
  simp [ChessPiece.name, h.1.1.2]

lemma opt_piece_eq_refl (c : Option ChessPiece) : opt_piece_eq c c = true := by
  cases c <;> simp [opt_piece_eq, ChessPiece.eqb]

lemma promo_eq_refl (c : Option ChessPiece) : promo_eq c c = true := by
  cases c <;> simp [promo_eq]

/-- C9: two Moves with identical piece, origin, target, captured piece and
promotion choice compare equal under `Move.__eq__` (whatever their
`rook_move` payloads), and `Move.__eq__`-equal Moves have equal hash inputs
`(piece.name, origin, target)`, so `Move.__hash__` is consistent with
equality. -/
theorem move_eq_components_and_hash (m1 m2 : Move) :
    (m1.piece = m2.piece → m1.origin = m2.origin → m1.target = m2.target →
      m1.captured_piece = m2.captured_piece →
      m1.promote_to = m2.promote_to → move_eq m1 m2 = true) ∧
    (move_eq m1 m2 = true → m1.hash_key = m2.hash_key) := by
  constructor
  · intro hp ho ht hc hpr
    simp [move_eq, hp, ho, ht, hc, hpr, ChessPiece.eqb_refl,
      opt_piece_eq_refl, promo_eq_refl]
  · intro h
    simp only [move_eq, Bool.and_eq_true, beq_iff_eq] at h
    obtain ⟨⟨⟨⟨h1, h2⟩, h3⟩, _⟩, _⟩ := h
    simp [Move.hash_key, ChessPiece.name_eq_of_eqb h1, h2, h3]

/-- C9 witness: `move_eq_components_and_hash` applied to the two concrete
Moves `c9_m1` and `c9_m2`, which differ only in their `rook_move`
payloads. -/
theorem move_eq_components_and_hash_witness :
    move_eq c9_m1 c9_m2 = true ∧ c9_m1.hash_key = c9_m2.hash_key := by
  have h := (move_eq_components_and_hash c9_m1 c9_m2).1 rfl rfl rfl rfl rfl
  exact ⟨h, (move_eq_components_and_hash c9_m1 c9_m2).2 h⟩

/-- C4: `game_result` returns the 50-move draw when the half-move clock is
at least 100; otherwise, when the active color has no legal move, it
returns checkmate for the non-active color exactly when the active king is
attacked and the stalemate draw when it is not; in all other cases it
returns `None`. -/
theorem game_result_spec (s : GameState) :
    (s.half_moves ≥ 100 →
      game_result s = .ok (some GameResult.DRAW_BY_50_MOVE)) ∧
    (s.half_moves < 100 → ∀ ksq, get_all_legal_moves s = .ok [] →
      s.find_king s.is_white_active = some ksq →
      ((is_attacked ksq s.is_white_active s = .ok true →
        game_result s = .ok (some (if s.is_white_active then
          GameResult.WIN_BLACK_CHECKMATE else GameResult.WIN_WHITE_CHECKMATE))) ∧
       (is_attacked ksq s.is_white_active s = .ok false →
        game_result s = .ok (some GameResult.DRAW_BY_STALEMATE)))) ∧
    (s.half_moves < 100 → ∀ l, get_all_legal_moves s = .ok l → l ≠ [] →
      game_result s = .ok none) := by
  have hbind : ∀ {α β : Type} (a : α) (f : α → Except PyError β),
      (Except.ok a >>= f) = f a := fun _ _ => rfl
  refine ⟨fun h => by simp [game_result, h], ?_, ?_⟩
  · intro hlt ksq hl hk
    have hn : ¬ s.half_moves ≥ 100 := by omega
    constructor
    · intro hatt
      cases hw : s.is_white_active <;> rw [hw] at hk hatt <;>
        simp [game_result, hn, hl, hk, hatt, hw, hbind, pure, Except.pure]
    · intro hatt
      simp [game_result, hn, hl, hk, hatt, hbind, pure, Except.pure]
  · intro hlt l hl hne
    have hn : ¬ s.half_moves ≥ 100 := by omega
    simp [game_result, hn, hl, hbind, List.length_eq_zero, hne, pure,
      Except.pure]

/-- C4 witness: the stalemate branch of `game_result_spec` at the concrete
stalemate position `c4_state` (black king a8, white queen b6, white king
h1, Black to move). -/
theorem game_result_spec_witness :
    game_result c4_state = .ok (some GameResult.DRAW_BY_STALEMATE) :=
  (((game_result_spec c4_state).2.1 (by decide) (0, 0) (by rfl)
    (by decide)).2) (by rfl)

lemma nodes_wf_add (ns : List GameTreeNode) (i : Nat) (node : GameTreeNode)
    (m : Move) (tag fen : String)
    (hget : ns.get? i = some node) (h : NodesWF ns) :
    NodesWF ((ns.set i { node with children := node.children ++ [(m, ns.length)] })
      ++ [{ depth := node.depth + 1, parent := some i, value := some m,
            tag := tag, fen := fen, children := [] }]) := by
  have hi : i < ns.length := (List.get?_eq_some.mp hget).1
  set node' : GameTreeNode :=
    { node with children := node.children ++ [(m, ns.length)] } with hnode'
  set c : GameTreeNode :=
    { depth := node.depth + 1, parent := some i, value := some m,
      tag := tag, fen := fen, children := [] } with hc
  set L := ns.set i node' with hLdef
  have hLlen : L.length = ns.length := List.length_set ns i node'
  have hlen : (L ++ [c]).length = ns.length + 1 := by simp [hLlen]
  have hgetL : ∀ j, j < ns.length →
      (L ++ [c]).get? j = (if j = i then some node' else ns.get? j) := by
    intro j hj
    rw [List.get?_append (by rw [hLlen]; exact hj)]
    by_cases hji : j = i
    · subst hji
      rw [if_pos rfl, hLdef, List.get?_set_eq, hget]
      rfl
    · rw [if_neg hji, hLdef, List.get?_set_ne node' ns (Ne.symm hji)]
  have hgetc : (L ++ [c]).get? ns.length = some c := by
    rw [List.get?_append_right (le_of_eq hLlen)]
    simp [hLlen]
  intro j nj hj
  rcases Nat.lt_trichotomy j ns.length with hjlt | hje | hjgt
  · rw [hgetL j hjlt] at hj
    by_cases hji : j = i
    · rw [if_pos hji] at hj
      injection hj with hj
      subst hj
      subst hji
      refine ⟨?_, ?_, ?_⟩
      · intro pr hpr
        rw [hlen]
        rcases List.mem_append.mp hpr with hold | hnew
        · exact Nat.lt_succ_of_lt ((h j node hget).1 pr hold)
        · rw [List.mem_singleton.mp hnew]
          exact Nat.lt_succ_self _
      · intro hpn
        exact (h j node hget).2.1 hpn
      · intro p hp
        obtain ⟨hpi, pn, hpn, hdep⟩ := (h j node hget).2.2 p hp
        refine ⟨hpi, pn, ?_, hdep⟩
        rw [hgetL p (Nat.lt_trans hpi hi), if_neg (Nat.ne_of_lt hpi)]
        exact hpn
    · rw [if_neg hji] at hj
      obtain ⟨hch, hroot, hpar⟩ := h j nj hj
      refine ⟨?_, hroot, ?_⟩
      · intro pr hpr
        rw [hlen]
        exact Nat.lt_succ_of_lt (hch pr hpr)
      · intro p hp
        obtain ⟨hpj, pn, hpn, hdep⟩ := hpar p hp
        by_cases hpi : p = i
        · subst hpi
          have hpn' : pn = node := by
            rw [hget] at hpn
            injection hpn with hh
            exact hh.symm
          refine ⟨hpj, node', ?_, ?_⟩
          · rw [hgetL p (Nat.lt_trans hpj hjlt), if_pos rfl]
          · rw [hdep, hpn']
        · refine ⟨hpj, pn, ?_, hdep⟩
          rw [hgetL p (Nat.lt_trans hpj hjlt), if_neg hpi]
          exact hpn
  · subst hje
    rw [hgetc] at hj
    injection hj with hj
    subst hj
    refine ⟨?_, ?_, ?_⟩
    · intro pr hpr
      simp [hc] at hpr
    · intro hpn
      simp [hc] at hpn
    · intro p hp
      have hp' : p = i := by
        simp [hc] at hp
        exact hp.symm
      subst hp'
      refine ⟨hi, node', ?_, ?_⟩
      · rw [hgetL p hi, if_pos rfl]
      · rfl
  · exfalso
    have : (L ++ [c]).get? j = none :=
      List.get?_eq_none.mpr (by rw [hlen]; omega)
    rw [this] at hj
    cases hj

lemma add_child_wf (t : GameTree) (i : Nat) (m : Move) (tag fen : String)
    (h : NodesWF t.nodes) (hi : i < t.nodes.length) :
    NodesWF (t.add_child i m tag fen).1.nodes ∧
    (t.add_child i m tag fen).2 < (t.add_child i m tag fen).1.nodes.length ∧
    t.nodes.length ≤ (t.add_child i m tag fen).1.nodes.length ∧
    (t.add_child i m tag fen).1.pointer = t.pointer ∧
    (t.add_child i m tag fen).1.tip = t.tip := by
  obtain ⟨node, hget⟩ : ∃ node, t.nodes.get? i = some node :=
    ⟨_, List.get?_eq_get hi⟩
  unfold GameTree.add_child
  rw [hget]
  dsimp only
  cases hf : node.children.find? (fun p => move_eq p.1 m) with
  | some pr =>
    refine ⟨h, ?_, le_refl _, rfl, rfl⟩
    exact (h i node hget).1 pr (List.mem_of_find?_eq_some hf)
  | none =>
    dsimp only
    refine ⟨nodes_wf_add t.nodes i node m tag fen hget h, ?_, ?_, rfl, rfl⟩
    · simp [List.length_set]
    · simp [List.length_set]

lemma make_move_nodes_pointer (t : GameTree) (m : Move) (tag fen : String) :
    (t.make_move m tag fen).nodes = (t.add_child t.pointer m tag fen).1.nodes ∧
    (t.make_move m tag fen).pointer = (t.add_child t.pointer m tag fen).2 := by
  unfold GameTree.make_move
  dsimp only
  cases hg : ((t.add_child t.pointer m tag fen).1.nodes).get?
      (t.add_child t.pointer m tag fen).2 with
  | none => exact ⟨rfl, rfl⟩
  | some n =>
    dsimp only
    by_cases hb : n.children.isEmpty = true
    · rw [if_pos hb]
      exact ⟨rfl, rfl⟩
    · rw [if_neg hb]
      exact ⟨rfl, rfl⟩

lemma built_tree_wf {t : GameTree} (hb : TreeBuilt t) : TreeWF t := by
  induction hb with
  | init fen =>
    refine ⟨by simp [GameTree.init], ?_⟩
    intro j node hj
    cases j with
    | zero =>
      simp [GameTree.init] at hj
      refine ⟨?_, ?_, ?_⟩
      · intro pr hpr
        rw [← hj] at hpr
        simp at hpr
      · intro _
        rw [← hj]
      · intro p hp
        rw [← hj] at hp
        cases hp
    | succ n => simp [GameTree.init] at hj
  | step t m tag fen hb ih =>
    obtain ⟨hp, hn⟩ := ih
    obtain ⟨hwf, hlt, hle, hpt, htip⟩ := add_child_wf t t.pointer m tag fen hn hp
    obtain ⟨hns, hpt2⟩ := make_move_nodes_pointer t m tag fen
    constructor
    · rw [hpt2, hns]
      exact hlt
    · rw [hns]
      exact hwf
  | child t i m tag fen hb hi ih =>
    obtain ⟨hp, hn⟩ := ih
    obtain ⟨hwf, hlt, hle, hpt, htip⟩ := add_child_wf t i m tag fen hn hi
    exact ⟨by rw [hpt]; exact Nat.lt_of_lt_of_le hp hle, hwf⟩

lemma get_path_aux_length (t : GameTree) (h : NodesWF t.nodes) :
    ∀ fuel j node, t.nodes.get? j = some node → j < fuel →
      (t.get_path_aux fuel j).length = node.depth := by
  intro fuel
  induction fuel with
  | zero =>
    intro j node _ hj
    omega
  | succ f ih =>
    intro j node hget hj
    unfold GameTree.get_path_aux
    rw [hget]
    dsimp only
    cases hpar : node.parent with
    | none =>
      exact ((h j node hget).2.1 hpar).symm
    | some p =>
      obtain ⟨hpj, pn, hpget, hdep⟩ := (h j node hget).2.2 p hpar
      rw [List.length_append, ih p pn hpget (by omega), hdep]
      simp

/-- C10: in every tree built through `GameTree.make_move` and
`GameTreeNode.add_child`, each non-root node (one whose `parent` is set)
has a parent that exists in the tree with the node's depth equal to the
parent's depth plus one, and `get_path` returns a root-to-node move list
whose length equals the node's depth. -/
theorem tree_depth_parent_path_spec (t : GameTree) (hb : TreeBuilt t)
    (j : Nat) (node : GameTreeNode) (hget : t.nodes.get? j = some node) :
    (∀ p, node.parent = some p →
      ∃ pn, t.nodes.get? p = some pn ∧ node.depth = pn.depth + 1) ∧
    (t.get_path j).length = node.depth := by
  have hwf := built_tree_wf hb
  refine ⟨fun p hp => ((hwf.2 j node hget).2.2 p hp).2, ?_⟩
  have hj : j < t.nodes.length := (List.get?_eq_some.mp hget).1
  exact get_path_aux_length t hwf.2 t.nodes.length j node hget hj

/-- C10 witness: `tree_depth_parent_path_spec` applied to the concrete
one-move tree `c10_tree` at its unique depth-1 node. -/
theorem tree_depth_parent_path_spec_witness :
    (c10_tree.get_path 1).length = 1 := by
  have hb : TreeBuilt c10_tree :=
    TreeBuilt.step (GameTree.init "rootfen") default "e4" "f1"
      (TreeBuilt.init "rootfen")
  have h := tree_depth_parent_path_spec c10_tree hb 1
    { depth := 1, parent := some 0, value := some default, tag := "e4",
      fen := "f1", children := [] } (by rfl)
  exact h.2

end ChessGUI
